import Mathlib

/-!
Verification of the autonomous research agent workflow (`src/main.py`).

The Python program builds a LangGraph state machine over a `ResearchState`
record: a planner node, a tool router, two search nodes (Tavily web search
and ArXiv), an analysis node, a query-refinement node and a terminal write
node, with conditional edges driven by `should_continue` and by the
`tool_choice` field, all executed under `recursion_limit=50`.

We shallowly embed the state record, every node function, the conditional
edge functions, and the engine loop.  External collaborators (the language
model and the two search tools) are modelled as oracles: arbitrary functions
supplying the text each call returns.  Python string operations used by the
code (`str.strip`, `str.lower`, `str.split("\n")`, the `in` substring test)
are modelled by executable functions over the character list of a `String`.
-/

namespace AutoResearch

/-- The ASCII whitespace characters removed by Python `str.strip()`. -/
def isSpaceChar (c : Char) : Bool :=
  c = ' ' || c = '\t' || c = '\n' || c = '\r' || c = '\x0b' || c = '\x0c'

/-- Model of Python `str.strip()`: remove whitespace from both ends. -/
def pyStrip (s : String) : String :=
  String.mk (((s.data.dropWhile isSpaceChar).reverse.dropWhile isSpaceChar).reverse)

/-- Model of Python `str.lower()` (ASCII case folding). -/
def pyLower (s : String) : String :=
  String.mk (s.data.map Char.toLower)

/-- Split a character list at every newline; always returns at least one
piece, exactly like Python `str.split("\n")`. -/
def splitLines : List Char → List (List Char)
  | [] => [[]]
  | c :: cs =>
    if c = '\n' then [] :: splitLines cs
    else
      match splitLines cs with
      | [] => [[c]]
      | l :: ls => (c :: l) :: ls

/-- Model of Python `s.split("\n")`. -/
def pySplitNL (s : String) : List String :=
  (splitLines s.data).map String.mk

/-- Does `pat` occur at the head of `s`? (char-list helper for `pyIn`). -/
def charsLead : List Char → List Char → Bool
  | [], _ => true
  | _ :: _, [] => false
  | a :: as, b :: bs => a == b && charsLead as bs

/-- Does `pat` occur anywhere inside `s`? (char-list helper for `pyIn`). -/
def charsHaveSub (pat : List Char) : List Char → Bool
  | [] => charsLead pat []
  | b :: bs => charsLead pat (b :: bs) || charsHaveSub pat bs

/-- Model of the Python substring test `sub in s`. -/
def pyIn (sub s : String) : Bool :=
  charsHaveSub sub.data s.data

/-- The `ResearchState` TypedDict of `src/main.py` (the `messages` field is
never read or written by any node and is omitted). -/
structure ResearchState where
  topic : String
  search_results : String
  decision : String
  report : String
  current_query : String
  retries : Nat
  subtopics : List String
  report_content : String
  tool_choice : String
deriving Repr, DecidableEq

/-- `MAX_RETRIES = 3` from `src/main.py`. -/
def MAX_RETRIES : Nat := 3

/-- `planner_node`: split the model response into lines; first line (or `""`
if the list were empty) becomes the current query; retries reset to 0. -/
def planner_node (resp : String) (s : ResearchState) : ResearchState :=
  let subtopics := pySplitNL (pyStrip resp)
  { s with subtopics := subtopics
           current_query := subtopics.headD ""
           retries := 0 }

/-- `router_node`: store the trimmed model response as `tool_choice`. -/
def router_node (resp : String) (s : ResearchState) : ResearchState :=
  { s with tool_choice := pyStrip resp }

/-- `tavily_search_node`: query the web tool with `f"{topic}: {current_query}"`,
store the raw payload, bump `retries`. -/
def tavily_search_node (web_search_tool : String → String) (s : ResearchState) :
    ResearchState :=
  { s with search_results := web_search_tool (s.topic ++ ": " ++ s.current_query)
           retries := s.retries + 1 }

/-- `arxiv_search_node`: query the ArXiv tool with `current_query` alone,
store the raw payload, bump `retries`. -/
def arxiv_search_node (arxiv_tool : String → String) (s : ResearchState) :
    ResearchState :=
  { s with search_results := arxiv_tool s.current_query
           retries := s.retries + 1 }

/-- `analyze_node`: lower-cased trimmed response; on exact `"continue"` pop
the front subtopic (no-op when empty), reset retries, append
`"\n" + search_results` to `report_content`, and set the decision to
`"continue"` (next subtopic exists) or `"write"` (none left); any other
response only records itself as the decision. -/
def analyze_node (resp : String) (s : ResearchState) : ResearchState :=
  let decision := pyLower (pyStrip resp)
  if decision = "continue" then
    let subtopics := s.subtopics.tail
    let rc := s.report_content ++ "\n" ++ s.search_results
    match subtopics with
    | [] =>
      { s with decision := "write", subtopics := [], retries := 0, report_content := rc }
    | q :: rest =>
      { s with decision := "continue", subtopics := q :: rest, current_query := q,
               retries := 0, report_content := rc }
  else
    { s with decision := decision }

/-- `refine_query_node`: replace `current_query` with the trimmed model
response (the ≤300-character request lives only in the prompt text). -/
def refine_query_node (resp : String) (s : ResearchState) : ResearchState :=
  { s with current_query := pyStrip resp }

/-- `write_node`: store the model response as the final report. -/
def write_node (resp : String) (s : ResearchState) : ResearchState :=
  { s with report := resp }

/-- `should_continue`, the conditional edge after `analyze`.  The Python
function mutates the state it is given and returns the branch label; we
return the mutated state together with the label.  At `retries >= MAX_RETRIES`
it force-accepts (pop front subtopic, reset retries, append evidence) and
returns `"continue"` or `"write"`; otherwise it returns `"continue"` exactly
when the decision text contains `"continue"`, else `"rewrite"`. -/
def should_continue (s : ResearchState) : ResearchState × String :=
  if MAX_RETRIES ≤ s.retries then
    let subtopics := s.subtopics.tail
    let rc := s.report_content ++ "\n" ++ s.search_results
    match subtopics with
    | [] =>
      ({ s with subtopics := [], retries := 0, report_content := rc }, "write")
    | q :: rest =>
      ({ s with subtopics := q :: rest, retries := 0, report_content := rc,
                current_query := q }, "continue")
  else
    (s, if pyIn "continue" s.decision then "continue" else "rewrite")

/-- The named graph nodes of `build_workflow`. -/
inductive Node
  | planner
  | router
  | tavily_search
  | arxiv_search
  | analyze
  | refine_query
  | write
deriving Repr, DecidableEq

/-- The conditional edge map after `router`: dispatch on `tool_choice`,
`none` when no branch of the map matches (LangGraph raises an error). -/
def route_tool_choice (s : ResearchState) : Option Node :=
  if s.tool_choice = "TavilySearch" then some Node.tavily_search
  else if s.tool_choice = "ArXiv" then some Node.arxiv_search
  else none

/-- The conditional edge map after `analyze`: dispatch on the label returned
by `should_continue`; `none` when no branch matches. -/
def route_decision (label : String) : Option Node :=
  if label = "continue" then some Node.router
  else if label = "rewrite" then some Node.refine_query
  else if label = "write" then some Node.write
  else none

/-- The external collaborators: the language model (indexed by step number)
and the two search tools (payload as a function of the submitted query). -/
structure Oracle where
  llm : Nat → String
  web : String → String
  arxiv : String → String

/-- What one engine step does: the merged state, the observable snapshots,
and where control goes next. -/
inductive Next
  | go (n : Node)
  | done
  | err (msg : String)
deriving Repr, DecidableEq

/-- Result of executing one node (plus its conditional edge, if any):
the resulting state, the state snapshots observed, the evidence chunks
accepted during the step, and the next control action. -/
structure ExecOut where
  state : ResearchState
  snapshots : List ResearchState
  accepted : List String
  next : Next

/-- One engine step: run the node function on the current state (feeding it
the oracle's response), then follow the graph's edge for that node. -/
def execNode (o : Oracle) (k : Nat) (n : Node) (s : ResearchState) : ExecOut :=
  match n with
  | Node.planner =>
    let s1 := planner_node (o.llm k) s
    ⟨s1, [s1], [], Next.go Node.router⟩
  | Node.router =>
    let s1 := router_node (o.llm k) s
    match route_tool_choice s1 with
    | some m => ⟨s1, [s1], [], Next.go m⟩
    | none => ⟨s1, [s1], [], Next.err "branch not found in tool map"⟩
  | Node.tavily_search =>
    let s1 := tavily_search_node o.web s
    ⟨s1, [s1], [], Next.go Node.analyze⟩
  | Node.arxiv_search =>
    let s1 := arxiv_search_node o.arxiv s
    ⟨s1, [s1], [], Next.go Node.analyze⟩
  | Node.analyze =>
    let resp := o.llm k
    let s1 := analyze_node resp s
    let p := should_continue s1
    let acc : List String :=
      if pyLower (pyStrip resp) = "continue" ∨ MAX_RETRIES ≤ s1.retries then
        [s.search_results]
      else []
    match route_decision p.2 with
    | some m => ⟨p.1, [s1, p.1], acc, Next.go m⟩
    | none => ⟨p.1, [s1, p.1], acc, Next.err "branch not found in decision map"⟩
  | Node.refine_query =>
    let s1 := refine_query_node (o.llm k) s
    ⟨s1, [s1], [], Next.go Node.router⟩
  | Node.write =>
    let s1 := write_node (o.llm k) s
    ⟨s1, [s1], [], Next.done⟩

/-- Terminal outcome of a run: the write node finished, or a fatal error
(unmatched conditional branch, or the recursion limit). -/
inductive Outcome
  | finished (s : ResearchState)
  | failed (msg : String) (s : ResearchState)
deriving Repr, DecidableEq

/-- The state carried by an outcome. -/
def Outcome.state : Outcome → ResearchState
  | Outcome.finished s => s
  | Outcome.failed _ s => s

/-- Full log of a run: outcome, number of executed steps, every observed
state snapshot in order, and the accepted evidence chunks in order. -/
structure RunLog where
  outcome : Outcome
  steps : Nat
  trace : List ResearchState
  accepted : List String

/-- The engine loop: execute nodes following the edges, spending one unit of
fuel per step; fuel exhaustion is LangGraph's `GraphRecursionError`. -/
def runAux (o : Oracle) : Nat → Nat → Node → ResearchState → RunLog
  | 0, _, _, s => ⟨Outcome.failed "GraphRecursionError" s, 0, [], []⟩
  | fuel + 1, k, n, s =>
    let e := execNode o k n s
    match e.next with
    | Next.go m =>
      let r := runAux o fuel (k + 1) m e.state
      ⟨r.outcome, r.steps + 1, e.snapshots ++ r.trace, e.accepted ++ r.accepted⟩
    | Next.done => ⟨Outcome.finished e.state, 1, e.snapshots, e.accepted⟩
    | Next.err m => ⟨Outcome.failed m e.state, 1, e.snapshots, e.accepted⟩

/-- `recursion_limit=50` passed by `main` via `RunnableConfig`. -/
def recursion_limit : Nat := 50

/-- The initial state built by `main` (and by `app.py`). -/
def initial_state (topic : String) : ResearchState :=
  { topic := topic
    search_results := ""
    decision := ""
    report := ""
    current_query := topic
    retries := 0
    subtopics := []
    report_content := ""
    tool_choice := "" }

/-- A complete run: start at the planner with the initial state under the
configured recursion limit. -/
def run (o : Oracle) (topic : String) : RunLog :=
  runAux o recursion_limit 0 Node.planner (initial_state topic)

/-- The evidence accumulator shape: each accepted chunk is appended as a
newline followed by the raw payload. -/
def joinChunks : List String → String
  | [] => ""
  | r :: rs => "\n" ++ r ++ joinChunks rs

/-- The per-node bound on `retries` at node entry that the run preserves:
at most `MAX_RETRIES - 1` entering the router, the search nodes and query
refinement, at most `MAX_RETRIES` elsewhere. -/
def nodeBound : Node → Nat
  | Node.router => MAX_RETRIES - 1
  | Node.tavily_search => MAX_RETRIES - 1
  | Node.arxiv_search => MAX_RETRIES - 1
  | Node.refine_query => MAX_RETRIES - 1
  | _ => MAX_RETRIES

/-- A concrete mid-run state used to exercise the step functions. -/
def stA : ResearchState :=
  ⟨"T", "abc", "", "", "Q", 2, ["a", "b"], "", ""⟩

/-- A concrete state whose retry counter has reached the maximum. -/
def stMax : ResearchState :=
  ⟨"T", "abc", "still weak", "", "Q", 3, ["a", "b"], "prior", "TavilySearch"⟩

/-- An oracle answering every model call with text matching no branch. -/
def oracleNonsense : Oracle :=
  ⟨fun _ => "nonsense", fun q => q, fun q => q⟩

/-- A concrete state at the analysis of the last remaining subtopic. -/
def stLast : ResearchState :=
  ⟨"T", "r1", "", "", "a", 1, ["a"], "", "TavilySearch"⟩

/-- A concrete state with one subtopic left and empty report content. -/
def stOne : ResearchState :=
  ⟨"T", "abc", "", "", "a", 1, ["a"], "", ""⟩

/-- A concrete state entering the search step. -/
def st7 : ResearchState :=
  ⟨"T", "", "", "", "Q", 0, [], "", ""⟩

/-- A concrete state entering the router step. -/
def st8 : ResearchState :=
  ⟨"T", "", "", "", "q", 0, ["q"], "", ""⟩

/-- A 301-character model response. -/
def longResp : String := String.mk (List.replicate 301 'a')

/- ------------------------------------------------------------------ -/
/- Helper lemmas                                                       -/
/- ------------------------------------------------------------------ -/

theorem str_append_assoc (a b c : String) : a ++ b ++ c = a ++ (b ++ c) :=
  String.append_assoc a b c

theorem str_append_empty (a : String) : a ++ "" = a :=
  String.append_empty a

theorem splitLines_ne_nil (l : List Char) : splitLines l ≠ [] := by
  cases l with
  | nil => simp [splitLines]
  | cons c cs =>
    simp only [splitLines]
    split
    · simp
    · cases h : splitLines cs <;> simp

theorem analyze_node_accept (resp : String) (s : ResearchState)
    (h : pyLower (pyStrip resp) = "continue") :
    (analyze_node resp s).subtopics = s.subtopics.tail ∧
    (analyze_node resp s).retries = 0 ∧
    (analyze_node resp s).report_content =
      s.report_content ++ "\n" ++ s.search_results ∧
    (analyze_node resp s).current_query = s.subtopics.tail.headD s.current_query ∧
    (analyze_node resp s).decision =
      (if s.subtopics.tail = [] then "write" else "continue") ∧
    (analyze_node resp s).search_results = s.search_results ∧
    (analyze_node resp s).topic = s.topic := by
  unfold analyze_node
  rw [if_pos h]
  cases htail : s.subtopics.tail <;> simp [htail]

theorem analyze_node_reject (resp : String) (s : ResearchState)
    (h : ¬ pyLower (pyStrip resp) = "continue") :
    analyze_node resp s = { s with decision := pyLower (pyStrip resp) } := by
  unfold analyze_node
  rw [if_neg h]

theorem should_continue_forced (s : ResearchState) (h : MAX_RETRIES ≤ s.retries) :
    (should_continue s).1.retries = 0 ∧
    (should_continue s).1.subtopics = s.subtopics.tail ∧
    (should_continue s).1.report_content =
      s.report_content ++ "\n" ++ s.search_results ∧
    (should_continue s).1.current_query = s.subtopics.tail.headD s.current_query ∧
    (should_continue s).1.search_results = s.search_results ∧
    (should_continue s).1.topic = s.topic ∧
    (should_continue s).2 = (if s.subtopics.tail = [] then "write" else "continue") := by
  unfold should_continue
  rw [if_pos h]
  cases htail : s.subtopics.tail <;> simp [htail]

theorem should_continue_not_forced (s : ResearchState) (h : s.retries < MAX_RETRIES) :
    (should_continue s).1 = s ∧
    (should_continue s).2 =
      (if pyIn "continue" s.decision then "continue" else "rewrite") := by
  unfold should_continue
  rw [if_neg (Nat.not_le.mpr h)]
  exact ⟨rfl, rfl⟩

theorem runAux_steps_le (o : Oracle) :
    ∀ (fuel k : Nat) (n : Node) (s : ResearchState),
      (runAux o fuel k n s).steps ≤ fuel := by
  intro fuel
  induction fuel with
  | zero => intro k n s; simp [runAux]
  | succ f ih =>
    intro k n s
    simp only [runAux]
    cases hnext : (execNode o k n s).next with
    | go m =>
      simpa using Nat.succ_le_succ (ih (k + 1) m (execNode o k n s).state)
    | done => simp
    | err m => simp

theorem route_decision_go_continue : route_decision "continue" = some Node.router := rfl

theorem route_decision_go_rewrite :
    route_decision "rewrite" = some Node.refine_query := rfl

theorem route_decision_go_write : route_decision "write" = some Node.write := rfl

theorem route_tool_choice_cases (s : ResearchState) (m : Node)
    (h : route_tool_choice s = some m) :
    m = Node.tavily_search ∨ m = Node.arxiv_search := by
  unfold route_tool_choice at h
  split_ifs at h <;> simp_all

theorem analyze_node_retries_cases (resp : String) (s : ResearchState) :
    (analyze_node resp s).retries = 0 ∨ (analyze_node resp s).retries = s.retries := by
  by_cases h : pyLower (pyStrip resp) = "continue"
  · exact Or.inl (analyze_node_accept resp s h).2.1
  · rw [analyze_node_reject resp s h]
    exact Or.inr rfl

theorem execNode_retries (o : Oracle) (k : Nat) (n : Node) (s : ResearchState)
    (hs : s.retries ≤ nodeBound n) :
    (∀ t ∈ (execNode o k n s).snapshots, t.retries ≤ MAX_RETRIES) ∧
    (∀ m, (execNode o k n s).next = Next.go m →
      (execNode o k n s).state.retries ≤ nodeBound m) := by
  cases n with
  | planner =>
    refine ⟨?_, ?_⟩
    · intro t ht
      simp only [execNode, List.mem_singleton] at ht
      subst ht
      simp [planner_node, MAX_RETRIES]
    · intro m hm
      simp only [execNode, Next.go.injEq] at hm
      subst hm
      simp [execNode, planner_node, nodeBound]
  | router =>
    have hs2 : s.retries ≤ MAX_RETRIES - 1 := hs
    rcases hrt : route_tool_choice (router_node (o.llm k) s) with _ | m'
    · refine ⟨?_, ?_⟩
      · intro t ht
        simp only [execNode, hrt, List.mem_singleton] at ht
        subst ht
        simp only [router_node]
        simp only [MAX_RETRIES] at hs2 ⊢
        omega
      · intro m hm
        simp [execNode, hrt] at hm
    · refine ⟨?_, ?_⟩
      · intro t ht
        simp only [execNode, hrt, List.mem_singleton] at ht
        subst ht
        simp only [router_node]
        simp only [MAX_RETRIES] at hs2 ⊢
        omega
      · intro m hm
        simp only [execNode, hrt, Next.go.injEq] at hm
        subst hm
        rcases route_tool_choice_cases _ _ hrt with h | h <;> subst h <;>
          simp only [execNode, hrt] <;> simpa [router_node, nodeBound] using hs2
  | tavily_search =>
    refine ⟨?_, ?_⟩
    · intro t ht
      simp only [execNode, List.mem_singleton] at ht
      subst ht
      simp only [tavily_search_node]
      simp only [nodeBound, MAX_RETRIES] at hs ⊢
      omega
    · intro m hm
      simp only [execNode, Next.go.injEq] at hm
      subst hm
      simp only [execNode, tavily_search_node]
      simp only [nodeBound, MAX_RETRIES] at hs ⊢
      omega
  | arxiv_search =>
    refine ⟨?_, ?_⟩
    · intro t ht
      simp only [execNode, List.mem_singleton] at ht
      subst ht
      simp only [arxiv_search_node]
      simp only [nodeBound, MAX_RETRIES] at hs ⊢
      omega
    · intro m hm
      simp only [execNode, Next.go.injEq] at hm
      subst hm
      simp only [execNode, arxiv_search_node]
      simp only [nodeBound, MAX_RETRIES] at hs ⊢
      omega
  | refine_query =>
    refine ⟨?_, ?_⟩
    · intro t ht
      simp only [execNode, List.mem_singleton] at ht
      subst ht
      simp only [refine_query_node]
      simp only [nodeBound, MAX_RETRIES] at hs ⊢
      omega
    · intro m hm
      simp only [execNode, Next.go.injEq] at hm
      subst hm
      simp only [execNode, refine_query_node]
      simp only [nodeBound, MAX_RETRIES] at hs ⊢
      omega
  | write =>
    refine ⟨?_, ?_⟩
    · intro t ht
      simp only [execNode, List.mem_singleton] at ht
      subst ht
      simpa [write_node, nodeBound] using hs
    · intro m hm
      simp [execNode] at hm
  | analyze =>
    have hs3 : s.retries ≤ MAX_RETRIES := hs
    have hs1 : (analyze_node (o.llm k) s).retries ≤ MAX_RETRIES := by
      rcases analyze_node_retries_cases (o.llm k) s with h | h <;> rw [h] <;> omega
    by_cases hforce : MAX_RETRIES ≤ (analyze_node (o.llm k) s).retries
    · obtain ⟨hret0, _, _, _, _, _, hlab⟩ :=
        should_continue_forced (analyze_node (o.llm k) s) hforce
      by_cases htail : (analyze_node (o.llm k) s).subtopics.tail = []
      · have hrd : route_decision (should_continue (analyze_node (o.llm k) s)).2 =
            some Node.write := by
          rw [hlab, if_pos htail, route_decision_go_write]
        refine ⟨?_, ?_⟩
        · intro t ht
          simp only [execNode, hrd, List.mem_cons, List.mem_singleton] at ht
          rcases ht with h | h | h
          · subst h; exact hs1
          · subst h; rw [hret0]; omega
          · simp at h
        · intro m hm
          simp only [execNode, hrd, Next.go.injEq] at hm
          subst hm
          simp only [execNode, hrd]
          rw [hret0]
          simp [nodeBound]
      · have hrd : route_decision (should_continue (analyze_node (o.llm k) s)).2 =
            some Node.router := by
          rw [hlab, if_neg htail, route_decision_go_continue]
        refine ⟨?_, ?_⟩
        · intro t ht
          simp only [execNode, hrd, List.mem_cons, List.mem_singleton] at ht
          rcases ht with h | h | h
          · subst h; exact hs1
          · subst h; rw [hret0]; omega
          · simp at h
        · intro m hm
          simp only [execNode, hrd, Next.go.injEq] at hm
          subst hm
          simp only [execNode, hrd]
          rw [hret0]
          simp [nodeBound, MAX_RETRIES]
    · have hlt : (analyze_node (o.llm k) s).retries < MAX_RETRIES := Nat.lt_of_not_le hforce
      obtain ⟨hp1, hlab⟩ := should_continue_not_forced (analyze_node (o.llm k) s) hlt
      by_cases hin : pyIn "continue" (analyze_node (o.llm k) s).decision
      · have hrd : route_decision (should_continue (analyze_node (o.llm k) s)).2 =
            some Node.router := by
          rw [hlab, if_pos hin, route_decision_go_continue]
        refine ⟨?_, ?_⟩
        · intro t ht
          simp only [execNode, hrd, List.mem_cons, List.mem_singleton] at ht
          rcases ht with h | h | h
          · subst h; exact hs1
          · subst h; rw [hp1]; exact hs1
          · simp at h
        · intro m hm
          simp only [execNode, hrd, Next.go.injEq] at hm
          subst hm
          simp only [execNode, hrd]
          rw [hp1]
          simp only [nodeBound, MAX_RETRIES] at hlt ⊢
          omega
      · have hrd : route_decision (should_continue (analyze_node (o.llm k) s)).2 =
            some Node.refine_query := by
          rw [hlab, if_neg hin, route_decision_go_rewrite]
        refine ⟨?_, ?_⟩
        · intro t ht
          simp only [execNode, hrd, List.mem_cons, List.mem_singleton] at ht
          rcases ht with h | h | h
          · subst h; exact hs1
          · subst h; rw [hp1]; exact hs1
          · simp at h
        · intro m hm
          simp only [execNode, hrd, Next.go.injEq] at hm
          subst hm
          simp only [execNode, hrd]
          rw [hp1]
          simp only [nodeBound, MAX_RETRIES] at hlt ⊢
          omega

theorem runAux_retries_le (o : Oracle) :
    ∀ (fuel k : Nat) (n : Node) (s : ResearchState),
      s.retries ≤ nodeBound n →
      ∀ t ∈ (runAux o fuel k n s).trace, t.retries ≤ MAX_RETRIES := by
  intro fuel
  induction fuel with
  | zero => intro k n s _ t ht; simp [runAux] at ht
  | succ f ih =>
    intro k n s hs t ht
    obtain ⟨hsnap, hstep⟩ := execNode_retries o k n s hs
    simp only [runAux] at ht
    revert ht
    cases hnext : (execNode o k n s).next with
    | go m =>
      intro ht
      simp only [List.mem_append] at ht
      rcases ht with h | h
      · exact hsnap t h
      · exact ih (k + 1) m (execNode o k n s).state (hstep m hnext) t h
    | done => intro ht; exact hsnap t ht
    | err m => intro ht; exact hsnap t ht

theorem joinChunks_append (l1 l2 : List String) :
    joinChunks (l1 ++ l2) = joinChunks l1 ++ joinChunks l2 := by
  induction l1 with
  | nil =>
    simp only [List.nil_append, joinChunks]
    exact (String.empty_append _).symm
  | cons r rs ih =>
    show "\n" ++ r ++ joinChunks (rs ++ l2) = "\n" ++ r ++ joinChunks rs ++ joinChunks l2
    rw [ih, ← str_append_assoc]

theorem execNode_rc (o : Oracle) (k : Nat) (n : Node) (s : ResearchState) :
    (execNode o k n s).state.report_content =
      s.report_content ++ joinChunks (execNode o k n s).accepted := by
  cases n with
  | planner => simp [execNode, planner_node, joinChunks, str_append_empty]
  | router =>
    rcases hrt : route_tool_choice (router_node (o.llm k) s) with _ | m <;>
      simp only [execNode, hrt] <;>
      simp [router_node, joinChunks, str_append_empty]
  | tavily_search => simp [execNode, tavily_search_node, joinChunks, str_append_empty]
  | arxiv_search => simp [execNode, arxiv_search_node, joinChunks, str_append_empty]
  | refine_query => simp [execNode, refine_query_node, joinChunks, str_append_empty]
  | write => simp [execNode, write_node, joinChunks, str_append_empty]
  | analyze =>
    rcases hrd : route_decision (should_continue (analyze_node (o.llm k) s)).2
        with _ | m <;>
      simp only [execNode, hrd] <;>
      by_cases hacc : pyLower (pyStrip (o.llm k)) = "continue"
    case pos | pos =>
      have hfacts := analyze_node_accept (o.llm k) s hacc
      have hnf : (analyze_node (o.llm k) s).retries < MAX_RETRIES := by
        rw [hfacts.2.1]; decide
      obtain ⟨hp1, _⟩ := should_continue_not_forced _ hnf
      rw [hp1, hfacts.2.2.1, if_pos (Or.inl hacc)]
      simp [joinChunks, str_append_empty, str_append_assoc]
    case neg | neg =>
      have h1rc : (analyze_node (o.llm k) s).report_content = s.report_content := by
        rw [analyze_node_reject _ _ hacc]
      have h1sr : (analyze_node (o.llm k) s).search_results = s.search_results := by
        rw [analyze_node_reject _ _ hacc]
      by_cases hforce : MAX_RETRIES ≤ (analyze_node (o.llm k) s).retries
      · obtain ⟨_, _, hrc, _, _, _, _⟩ := should_continue_forced _ hforce
        rw [hrc, h1rc, h1sr, if_pos (Or.inr hforce)]
        simp [joinChunks, str_append_empty, str_append_assoc]
      · obtain ⟨hp1, _⟩ :=
          should_continue_not_forced _ (Nat.lt_of_not_le hforce)
        rw [hp1, h1rc, if_neg (fun h => h.elim hacc hforce)]
        simp [joinChunks, str_append_empty]

theorem runAux_rc (o : Oracle) :
    ∀ (fuel k : Nat) (n : Node) (s : ResearchState),
      (runAux o fuel k n s).outcome.state.report_content =
        s.report_content ++ joinChunks (runAux o fuel k n s).accepted := by
  intro fuel
  induction fuel with
  | zero =>
    intro k n s
    simp [runAux, Outcome.state, joinChunks, str_append_empty]
  | succ f ih =>
    intro k n s
    have hstep := execNode_rc o k n s
    simp only [runAux]
    cases hnext : (execNode o k n s).next with
    | go m =>
      simp only []
      rw [ih (k + 1) m (execNode o k n s).state, hstep, joinChunks_append,
        str_append_assoc]
    | done => simpa [Outcome.state] using hstep
    | err m => simpa [Outcome.state] using hstep

/- ------------------------------------------------------------------ -/
/- Claim theorems                                                      -/
/- ------------------------------------------------------------------ -/

/-- C1 counterexample: the response `"please continue"` contains the token
`"continue"` after trimming and lowercasing, so the claim requires the
Analyze step to treat the evidence as sufficient (pop a subtopic, reset
retries, append evidence); the code compares for equality instead and
leaves the state unchanged apart from the recorded decision. -/
theorem c1_counterexample :
    pyIn "continue" (pyLower (pyStrip "please continue")) = true ∧
    (analyze_node "please continue" stA).subtopics = stA.subtopics ∧
    stA.subtopics.tail ≠ stA.subtopics ∧
    (analyze_node "please continue" stA).retries = 2 ∧
    (analyze_node "please continue" stA).report_content = stA.report_content := by
  decide

/-- C1 (amended): the Analyze step treats the evidence as sufficient exactly
when the trimmed lowercased response EQUALS `"continue"`; in that case it
pops the front of subtopics (no-op if empty), resets retries to 0, appends
a newline plus searchResults to reportContent, and sets currentQuery to the
new front (decision `"continue"`) or, if subtopics became empty, sets the
decision to `"write"`; any other response leaves everything but the recorded
decision unchanged. -/
theorem c1_analyze_exact_match (resp : String) (s : ResearchState) :
    (pyLower (pyStrip resp) = "continue" →
      (analyze_node resp s).subtopics = s.subtopics.tail ∧
      (analyze_node resp s).retries = 0 ∧
      (analyze_node resp s).report_content =
        s.report_content ++ "\n" ++ s.search_results ∧
      (analyze_node resp s).current_query = s.subtopics.tail.headD s.current_query ∧
      (analyze_node resp s).decision =
        (if s.subtopics.tail = [] then "write" else "continue")) ∧
    (pyLower (pyStrip resp) ≠ "continue" →
      analyze_node resp s = { s with decision := pyLower (pyStrip resp) }) := by
  constructor
  · intro h
    obtain ⟨h1, h2, h3, h4, h5, _, _⟩ := analyze_node_accept resp s h
    exact ⟨h1, h2, h3, h4, h5⟩
  · intro h
    exact analyze_node_reject resp s h

/-- C1 witness: both branches of the amended claim at concrete inputs. -/
theorem c1_analyze_exact_match_witness :
    (analyze_node " Continue " stA).subtopics = ["b"] ∧
    (analyze_node "looks weak" stA).decision = "looks weak" := by
  constructor
  · have h := (c1_analyze_exact_match " Continue " stA).1 (by decide)
    rw [h.1]
    decide
  · have h := (c1_analyze_exact_match "looks weak" stA).2 (by decide)
    rw [h]
    decide

/-- C2: in every reachable state of a run, `retries ≤ MAX_RETRIES`; whenever
`retries ≥ MAX_RETRIES` at the Analyze step's exit, `should_continue`
force-accepts exactly as the continue branch does (pop the front subtopic,
reset retries to 0, append the current searchResults to reportContent) and
returns a label routed to the Router node if subtopics remain, else to the
Write node. -/
theorem c2_retry_bound_and_forced_acceptance :
    (∀ (o : Oracle) (topic : String) (t : ResearchState),
        t ∈ (run o topic).trace → t.retries ≤ MAX_RETRIES) ∧
    (∀ s : ResearchState, MAX_RETRIES ≤ s.retries →
        (should_continue s).1.subtopics = s.subtopics.tail ∧
        (should_continue s).1.retries = 0 ∧
        (should_continue s).1.report_content =
          s.report_content ++ "\n" ++ s.search_results ∧
        (should_continue s).2 =
          (if s.subtopics.tail = [] then "write" else "continue")) ∧
    route_decision "continue" = some Node.router ∧
    route_decision "write" = some Node.write := by
  refine ⟨?_, ?_, rfl, rfl⟩
  · intro o topic t ht
    exact runAux_retries_le o recursion_limit 0 Node.planner (initial_state topic)
      (by simp [initial_state, nodeBound]) t ht
  · intro s h
    obtain ⟨h1, h2, h3, _, _, _, h4⟩ := should_continue_forced s h
    exact ⟨h2, h1, h3, h4⟩

/-- C2 witness: the reachable-state bound at a concrete run's first snapshot,
and forced acceptance at a concrete state whose retries reached the cap. -/
theorem c2_retry_bound_and_forced_acceptance_witness :
    ((⟨"t0", "", "", "", "nonsense", 0, ["nonsense"], "", ""⟩ :
        ResearchState).retries ≤ MAX_RETRIES) ∧
    (should_continue stMax).1.retries = 0 := by
  constructor
  · exact c2_retry_bound_and_forced_acceptance.1 oracleNonsense "t0" _ (by decide)
  · exact (c2_retry_bound_and_forced_acceptance.2.1 stMax (by decide)).2.1

/-- C3: for any oracle (model and tool responses) and any topic, the run
reaches a terminal outcome — the Write node finishing or a fatal error
(unmatched branch or `GraphRecursionError`) — within the configured global
ceiling of 50 step executions. -/
theorem c3_global_step_ceiling (o : Oracle) (topic : String) :
    (run o topic).steps ≤ 50 ∧
    ((∃ s, (run o topic).outcome = Outcome.finished s) ∨
      (∃ msg s, (run o topic).outcome = Outcome.failed msg s)) := by
  constructor
  · have h := runAux_steps_le o recursion_limit 0 Node.planner (initial_state topic)
    simpa [run, recursion_limit] using h
  · rcases hout : (run o topic).outcome with s | ⟨m, s⟩
    · exact Or.inl ⟨s, rfl⟩
    · exact Or.inr ⟨m, s, rfl⟩

/-- C4 (code bug): after the Analyze step accepts the last subtopic,
`subtopics` is empty and the decision is `"write"`, yet `should_continue`
returns `"rewrite"` (its fallthrough only ever checks containment of
`"continue"`), so the engine routes to the `refine_query` node — not to the
Write node — even though the edge map and the decision override exist
precisely to transition to writing at this point. -/
theorem c4_empty_subtopics_routes_to_refine :
    (analyze_node "continue" stLast).subtopics = [] ∧
    (analyze_node "continue" stLast).decision = "write" ∧
    (should_continue (analyze_node "continue" stLast)).2 = "rewrite" ∧
    route_decision "rewrite" = some Node.refine_query := by
  decide

/-- C5 counterexample: after a single accepted subtopic whose searchResults
is `"abc"` (starting from empty reportContent), the accumulator holds
`"\nabc"`, not the plain concatenation `"abc"`: every accepted chunk is
prefixed with a newline. -/
theorem c5_counterexample :
    stOne.report_content = "" ∧
    stOne.search_results = "abc" ∧
    (analyze_node "continue" stOne).report_content = "\nabc" ∧
    ("\nabc" : String) ≠ "abc" := by
  decide

/-- C5 (amended): `reportContent` is append-only — every step function
either leaves it unchanged or extends it on the right — and at the end of a
run it equals the concatenation, in acceptance order, of a newline followed
by each accepted chunk's searchResults. -/
theorem c5_append_only_and_newline_concat :
    (∀ (resp : String) (s : ResearchState),
        (∃ u, (planner_node resp s).report_content = s.report_content ++ u) ∧
        (∃ u, (router_node resp s).report_content = s.report_content ++ u) ∧
        (∃ u, (refine_query_node resp s).report_content = s.report_content ++ u) ∧
        (∃ u, (write_node resp s).report_content = s.report_content ++ u) ∧
        (∃ u, (analyze_node resp s).report_content = s.report_content ++ u)) ∧
    (∀ (tool : String → String) (s : ResearchState),
        (∃ u, (tavily_search_node tool s).report_content = s.report_content ++ u) ∧
        (∃ u, (arxiv_search_node tool s).report_content = s.report_content ++ u)) ∧
    (∀ s : ResearchState,
        ∃ u, (should_continue s).1.report_content = s.report_content ++ u) ∧
    (∀ (o : Oracle) (topic : String),
        (run o topic).outcome.state.report_content =
          joinChunks (run o topic).accepted) := by
  refine ⟨?_, ?_, ?_, ?_⟩
  · intro resp s
    refine ⟨⟨"", (str_append_empty _).symm⟩, ⟨"", (str_append_empty _).symm⟩,
      ⟨"", (str_append_empty _).symm⟩, ⟨"", (str_append_empty _).symm⟩, ?_⟩
    by_cases h : pyLower (pyStrip resp) = "continue"
    · exact ⟨"\n" ++ s.search_results,
        ((analyze_node_accept resp s h).2.2.1).trans (str_append_assoc _ _ _)⟩
    · rw [analyze_node_reject resp s h]
      exact ⟨"", (str_append_empty _).symm⟩
  · intro tool s
    exact ⟨⟨"", (str_append_empty _).symm⟩, ⟨"", (str_append_empty _).symm⟩⟩
  · intro s
    by_cases h : MAX_RETRIES ≤ s.retries
    · exact ⟨"\n" ++ s.search_results,
        ((should_continue_forced s h).2.2.1).trans (str_append_assoc _ _ _)⟩
    · rw [(should_continue_not_forced s (Nat.lt_of_not_le h)).1]
      exact ⟨"", (str_append_empty _).symm⟩
  · intro o topic
    have h := runAux_rc o recursion_limit 0 Node.planner (initial_state topic)
    rw [show (initial_state topic).report_content = "" from rfl,
      String.empty_append] at h
    exact h

/-- C6 counterexample: the planner splits the globally stripped response on
newlines without trimming individual lines or dropping empty ones — the
response `"a\n\n b"` yields `["a", "", " b"]`, not the non-empty trimmed
lines `["a", "b"]`; and on an empty response currentQuery becomes `""`
(the first split element), not the topic. -/
theorem c6_counterexample :
    (planner_node "a\n\n b" (initial_state "T")).subtopics = ["a", "", " b"] ∧
    (["a", "", " b"] : List String) ≠ ["a", "b"] ∧
    (planner_node "" (initial_state "T")).subtopics = [""] ∧
    (planner_node "" (initial_state "T")).current_query = "" ∧
    (initial_state "T").topic = "T" ∧
    ("" : String) ≠ "T" := by
  decide

/-- C6 (amended): after the Planner step, subtopics equals the response
trimmed at both ends and then split on newlines (interior empty lines kept,
lines not individually trimmed), currentQuery equals the first element of
that split (the empty string for a whitespace-only response, never the
topic), and retries is reset to 0. -/
theorem c6_planner_step (resp : String) (s : ResearchState) :
    (planner_node resp s).subtopics = pySplitNL (pyStrip resp) ∧
    (planner_node resp s).current_query = (pySplitNL (pyStrip resp)).headD "" ∧
    (planner_node resp s).retries = 0 ∧
    (planner_node resp s).topic = s.topic ∧
    (planner_node resp s).report_content = s.report_content :=
  ⟨rfl, rfl, rfl, rfl, rfl⟩

/-- C7 counterexample: with an identity search tool, the web variant submits
the composed query `"T: Q"` but the ArXiv variant submits the bare current
query `"Q"` — so the claim that both variants query with a concatenation of
the topic and the current query fails for the ArXiv variant. -/
theorem c7_counterexample :
    (tavily_search_node (fun q => q) st7).search_results = "T: Q" ∧
    (arxiv_search_node (fun q => q) st7).search_results = "Q" ∧
    ("Q" : String) ≠ "T: Q" := by
  decide

/-- C7 (amended): the web-search step queries its tool with
`topic ++ ": " ++ currentQuery` while the ArXiv step queries with
currentQuery alone; both store the raw payload in searchResults, set retries
to the previous value plus one, and touch nothing else. -/
theorem c7_search_steps (web arx : String → String) (s : ResearchState) :
    (tavily_search_node web s).search_results =
      web (s.topic ++ ": " ++ s.current_query) ∧
    (tavily_search_node web s).retries = s.retries + 1 ∧
    (tavily_search_node web s).subtopics = s.subtopics ∧
    (tavily_search_node web s).report_content = s.report_content ∧
    (tavily_search_node web s).current_query = s.current_query ∧
    (arxiv_search_node arx s).search_results = arx s.current_query ∧
    (arxiv_search_node arx s).retries = s.retries + 1 ∧
    (arxiv_search_node arx s).subtopics = s.subtopics ∧
    (arxiv_search_node arx s).report_content = s.report_content ∧
    (arxiv_search_node arx s).current_query = s.current_query :=
  ⟨rfl, rfl, rfl, rfl, rfl, rfl, rfl, rfl, rfl, rfl⟩

/-- C8 counterexample: for the response `"Use TavilySearch for this."` a
capability name does match within the trimmed response text, yet toolChoice
is set to the whole text rather than the matching name, and the dispatch
map then finds no branch (an engine error). -/
theorem c8_counterexample :
    pyIn "TavilySearch" "Use TavilySearch for this." = true ∧
    (router_node "Use TavilySearch for this." st8).tool_choice =
      "Use TavilySearch for this." ∧
    ("Use TavilySearch for this." : String) ≠ "TavilySearch" ∧
    route_tool_choice (router_node "Use TavilySearch for this." st8) = none := by
  decide

/-- C8 (amended): the Router step stores the entire trimmed response as
toolChoice; dispatch then matches it by exact equality against
`"TavilySearch"` and `"ArXiv"`, and any other value matches no branch, which
the engine surfaces as an error rather than silently defaulting. -/
theorem c8_router_step (resp : String) (s : ResearchState) :
    (router_node resp s).tool_choice = pyStrip resp ∧
    route_tool_choice { s with tool_choice := "TavilySearch" } =
      some Node.tavily_search ∧
    route_tool_choice { s with tool_choice := "ArXiv" } = some Node.arxiv_search ∧
    (s.tool_choice ≠ "TavilySearch" → s.tool_choice ≠ "ArXiv" →
      route_tool_choice s = none) := by
  refine ⟨rfl, by simp [route_tool_choice], by simp [route_tool_choice], ?_⟩
  intro h1 h2
  simp [route_tool_choice, h1, h2]

/-- C8 witness: the amended claim at a concrete response and state. -/
theorem c8_router_step_witness :
    (router_node " ArXiv " st8).tool_choice = "ArXiv" ∧
    route_tool_choice st8 = none := by
  constructor
  · exact ((c8_router_step " ArXiv " st8).1).trans (by decide)
  · exact (c8_router_step " ArXiv " st8).2.2.2 (by decide) (by decide)

set_option maxRecDepth 4000 in
/-- C9 counterexample: a 301-character model response becomes the new
currentQuery unchanged — the 300-character bound is requested in the prompt
but never enforced on the output. -/
theorem c9_counterexample :
    (refine_query_node longResp stA).current_query.length = 301 ∧
    ¬ (refine_query_node longResp stA).current_query.length ≤ 300 := by
  decide

/-- C9 (amended): the Refine Query step's only state change is to replace
currentQuery with the trimmed model response; no length bound is enforced
on the result. -/
theorem c9_refine_step (resp : String) (s : ResearchState) :
    (refine_query_node resp s).current_query = pyStrip resp ∧
    (refine_query_node resp s).topic = s.topic ∧
    (refine_query_node resp s).subtopics = s.subtopics ∧
    (refine_query_node resp s).retries = s.retries ∧
    (refine_query_node resp s).report_content = s.report_content ∧
    (refine_query_node resp s).search_results = s.search_results ∧
    (refine_query_node resp s).decision = s.decision ∧
    (refine_query_node resp s).report = s.report ∧
    (refine_query_node resp s).tool_choice = s.tool_choice :=
  ⟨rfl, rfl, rfl, rfl, rfl, rfl, rfl, rfl, rfl⟩

/-- C10: for every model response at the Planner step — including an empty
or whitespace-only one — the resulting subtopics list is non-empty
(splitting always yields at least one element, possibly `""`), so the
empty-subtopics fallback for currentQuery is unreachable and currentQuery
always equals the first element of subtopics. -/
theorem c10_planner_always_nonempty (resp : String) (s : ResearchState) :
    (planner_node resp s).subtopics ≠ [] ∧
    ∃ q rest, (planner_node resp s).subtopics = q :: rest ∧
      (planner_node resp s).current_query = q := by
  have h : pySplitNL (pyStrip resp) ≠ [] := fun hc =>
    splitLines_ne_nil (pyStrip resp).data (List.map_eq_nil_iff.mp hc)
  rcases hsp : pySplitNL (pyStrip resp) with _ | ⟨q, rest⟩
  · exact absurd hsp h
  · refine ⟨?_, q, rest, ?_, ?_⟩
    · simp [planner_node, hsp]
    · simp [planner_node, hsp]
    · simp [planner_node, hsp]

end AutoResearch
